import Mathlib

/-!
A shallow embedding of the rpack.rs rectangle-packing library
(src/size.rs, src/rectangle.rs, src/rectangle_packer.rs, src/height_rect_pack.rs).

Conventions of the embedding:
* Rust `usize` values are modelled as `Nat`.  The only places where `usize`
  arithmetic can leave the representable range in this code are the
  subtractions (`max_size.width - ...`, `max_size.height - ...`), which
  panic on underflow in debug builds; they are modelled by `usub`, which
  returns `none` on underflow.  Functions that can panic return
  `Option`, with `none` standing for a panic.
* `usize::MAX` (the unbounded container height) is `USIZE_MAX = 2 ^ 64 - 1`.
* `.max().unwrap()` on an iterator is `none` (a panic) on the empty list and
  the maximum otherwise.
* The single floating-point expression
  `(sizes.len() as f64 / total_width as f64).sqrt() as usize`
  is modelled by its exact real value `Nat.sqrt (len / total_width)`
  (floor of the square root of the rational `len / total_width`, which for a
  non-negative rational q satisfies floor (sqrt q) = Nat.sqrt (floor q)).
* `Vec::sort_unstable` sorts by the derived total order.  Because the order
  on `Size` is antisymmetric (equal keys are equal values), every sorted
  permutation of a list is the same list, so the result is modelled by
  insertion sort with the same order.
* Error messages built with `format!` that interpolate values are modelled
  by their constant template text; no claim is about message contents.
-/

namespace RPack

/-- `usize::MAX` on a 64-bit target. -/
def USIZE_MAX : Nat := 2 ^ 64 - 1

/-- Checked `usize` subtraction: Rust `a - b`, `none` on underflow (panic). -/
def usub (a b : Nat) : Option Nat :=
  if b ≤ a then some (a - b) else none

/-- src/size.rs: `Size { width, height }`. -/
structure Size where
  width : Nat
  height : Nat
  deriving DecidableEq

/-- src/size.rs: `Size::area`. -/
def Size.area (s : Size) : Nat := s.width * s.height

/-- src/size.rs: `Size::is_square`. -/
def Size.is_square (s : Size) : Bool := s.width == s.height

/-- src/size.rs: the `Ord` instance — height first, then width
(`self.height.cmp(&other.height).then(self.width.cmp(&other.width))`),
expressed as the corresponding `≤` relation. -/
def sizeLe (a b : Size) : Prop :=
  a.height < b.height ∨ (a.height = b.height ∧ a.width ≤ b.width)

instance : DecidableRel sizeLe := fun a b => by
  unfold sizeLe; infer_instance

instance : IsTotal Size sizeLe :=
  ⟨by intro a b; unfold sizeLe; omega⟩

instance : IsTrans Size sizeLe :=
  ⟨by intro a b c h1 h2; unfold sizeLe at *; omega⟩

instance : IsAntisymm Size sizeLe := by
  refine ⟨?_⟩
  intro a b h1 h2
  cases a with
  | mk aw ah =>
    cases b with
    | mk bw bh =>
      simp only [sizeLe] at h1 h2
      simp only [Size.mk.injEq]
      omega

/-- src/rectangle.rs: `Rectangle { x, y, width, height }`. -/
structure Rectangle where
  x : Nat
  y : Nat
  width : Nat
  height : Nat
  deriving DecidableEq

/-- src/rectangle.rs: `Rectangle::from_size`. -/
def Rectangle.from_size (x y : Nat) (s : Size) : Rectangle :=
  ⟨x, y, s.width, s.height⟩

/-- src/rectangle.rs: `Rectangle::contains` (inclusive bounds). -/
def Rectangle.contains (a b : Rectangle) : Bool :=
  decide (a.x ≤ b.x ∧ a.y ≤ b.y ∧
    a.x + a.width ≥ b.x + b.width ∧ a.y + a.height ≥ b.y + b.height)

/-- src/rectangle.rs: `Rectangle::intersects` (strict bounds). -/
def Rectangle.intersects (a b : Rectangle) : Bool :=
  decide (a.x < b.x + b.width ∧ a.x + a.width > b.x ∧
    a.y < b.y + b.height ∧ a.y + a.height > b.y)

/-- src/rectangle.rs: `Rectangle::area`. -/
def Rectangle.area (r : Rectangle) : Nat := r.width * r.height

/-- src/rectangle_packer.rs: `RectanglePackerConfig`. -/
structure RectanglePackerConfig where
  max_size : Option Size
  rectangle_padding : Nat
  border_padding : Nat
  deriving DecidableEq

/-- src/rectangle_packer.rs: `RectanglePackerConfig::default()`. -/
def RectanglePackerConfig.default : RectanglePackerConfig :=
  ⟨none, 0, 0⟩

/-- src/rectangle_packer.rs: `RectanglePackingResult`. -/
structure RectanglePackingResult where
  rectangles : List Rectangle
  size : Size
  deriving DecidableEq

/-- src/rectangle_packer.rs: `RectanglePackingError`. -/
structure RectanglePackingError where
  message : String
  result : RectanglePackingResult
  deriving DecidableEq

/-- The error value produced by `check_sizes` (its Rust message interpolates
the offending and maximum sizes; modelled by the constant template). -/
def checkErr : RectanglePackingError :=
  ⟨"Rectangle size is greater than max size", ⟨[], ⟨0, 0⟩⟩⟩

/-- The error produced by the placement loop when the next rectangle would
exceed the maximum height; its result records the in-progress cursor. -/
def overflowErr (x y : Nat) : RectanglePackingError :=
  ⟨"Could not fit all rectangles in max size", ⟨[], ⟨x, y⟩⟩⟩

/-- src/rectangle_packer.rs, `check_sizes`: the scan over `sizes` against the
usable interior `(iw, ih)`, returning the first offender's error. -/
def checkSizesGo (iw ih : Nat) : List Size → Except RectanglePackingError Unit
  | [] => .ok ()
  | s :: rest =>
    if s.width > iw ∨ s.height > ih then .error checkErr
    else checkSizesGo iw ih rest

/-- src/rectangle_packer.rs: `RectanglePacker::check_sizes`.  If
`config.max_size` is absent it succeeds; otherwise it subtracts
`2 * (border_padding + rectangle_padding)` from each dimension (a `usize`
subtraction which can underflow, hence `usub`) and scans the sizes. -/
def check_sizes (sizes : List Size) (config : RectanglePackerConfig) :
    Option (Except RectanglePackingError Unit) :=
  match config.max_size with
  | none => some (.ok ())
  | some m =>
    match usub m.width (2 * (config.border_padding + config.rectangle_padding)),
          usub m.height (2 * (config.border_padding + config.rectangle_padding)) with
    | some iw, some ih => some (checkSizesGo iw ih sizes)
    | _, _ => none

/-- `sizes.iter().map(|s| s.width).max()` folded out; for a non-empty list
of naturals `foldr max 0` is the maximum of the list. -/
def maxWidth (sizes : List Size) : Nat :=
  (sizes.map Size.width).foldr max 0

/-- src/height_rect_pack.rs lines 10-34: the effective container size.
`Some` is passed through; with `None` the row-width heuristic runs, which
panics (`none`) on an empty input because of `.max().unwrap()`. -/
def effectiveMaxSize (sizes : List Size) (config : RectanglePackerConfig) :
    Option Size :=
  match config.max_size with
  | some m => some m
  | none =>
    match sizes with
    | [] => none
    | _ :: _ =>
      let max_width := maxWidth sizes + 2 * config.rectangle_padding
      let total_width := (sizes.map Size.width).sum
      let average_num_rectangles_per_row :=
        Nat.sqrt (sizes.length / total_width) + 1
      let row_width :=
        max ((total_width / sizes.length) * average_num_rectangles_per_row)
          max_width + 2 * config.border_padding
      some ⟨row_width, USIZE_MAX⟩

/-- The mutable cursor of the placement pass: `x`, `y`, `largets_height`
(sic, the source's spelling). -/
structure Cursor where
  x : Nat
  y : Nat
  largets_height : Nat
  deriving DecidableEq

/-- src/height_rect_pack.rs lines 55-61: the row-wrap step.  If the next
rectangle would exceed the row width, `x` resets to `0` (not to the padded
origin), `y` advances by the incoming rectangle's height plus twice the
rectangle padding, and the row height resets. -/
def wrapStep (rp mw : Nat) (c : Cursor) (s : Size) : Cursor :=
  if c.x + s.width + rp > mw then ⟨0, c.y + s.height + 2 * rp, 0⟩ else c

/-- src/height_rect_pack.rs lines 52-84: the placement loop.  `rp` and `bp`
are the rectangle and border paddings, `mW`/`mH` the effective container
dimensions.  Each iteration evaluates the `usize` subtractions
`mW - bp` and `mH - bp` (panic on underflow).  On a height overflow the
loop fails with an error whose result holds no rectangles and the cursor as
its size.  Otherwise `x` advances **before** the rectangle is pushed, so the
emitted rectangle records the post-advance cursor. -/
def packLoop (rp bp mW mH : Nat) :
    Cursor → List Rectangle → List Size →
    Option (Except RectanglePackingError RectanglePackingResult)
  | c, acc, [] => some (.ok ⟨acc, ⟨c.x, c.y + c.largets_height⟩⟩)
  | c, acc, s :: rest =>
    match usub mW bp, usub mH bp with
    | some mw, some mh =>
      let c1 := wrapStep rp mw c s
      if c1.y + s.height + rp > mh then
        some (.error (overflowErr c1.x c1.y))
      else
        let x2 := c1.x + s.width + 2 * rp
        let lh2 := if s.height > c1.largets_height then s.height else c1.largets_height
        packLoop rp bp mW mH ⟨x2, c1.y, lh2⟩
          (acc ++ [Rectangle.from_size x2 c1.y s]) rest
    | _, _ => none

/-- `sizes.sort_unstable()`: ascending by the `Size` order (height primary,
width secondary).  Antisymmetry makes the sorted list unique, so insertion
sort gives the same list as Rust's unstable sort. -/
def sortSizes (l : List Size) : List Size :=
  List.insertionSort sizeLe l

/-- src/height_rect_pack.rs: `HeightRectPacker::pack`.  Determines the
effective container, runs `check_sizes`, sorts, and runs the placement
loop from the padded origin.  `none` models a panic. -/
def pack (sizes : List Size) (config : RectanglePackerConfig) :
    Option (Except RectanglePackingError RectanglePackingResult) :=
  match effectiveMaxSize sizes config with
  | none => none
  | some max_size =>
    match check_sizes sizes config with
    | none => none
    | some (.error e) => some (.error e)
    | some (.ok ()) =>
      packLoop config.rectangle_padding config.border_padding
        max_size.width max_size.height
        ⟨config.border_padding + config.rectangle_padding,
         config.border_padding + config.rectangle_padding, 0⟩
        [] (sortSizes sizes)

/-! ### Helper lemmas -/

theorem usub_eq_some {a b : Nat} (h : b ≤ a) : usub a b = some (a - b) := by
  simp [usub, h]

theorem usub_eq_none {a b : Nat} (h : a < b) : usub a b = none := by
  simp [usub]; omega

theorem checkSizesGo_ok_iff {iw ih : Nat} {l : List Size} :
    checkSizesGo iw ih l = .ok () ↔ ∀ s ∈ l, s.width ≤ iw ∧ s.height ≤ ih := by
  induction l with
  | nil => simp [checkSizesGo]
  | cons s rest ihl =>
    simp only [checkSizesGo]
    by_cases h : s.width > iw ∨ s.height > ih
    · rw [if_pos h]
      constructor
      · intro hc; exact Except.noConfusion hc
      · intro hall
        exfalso
        have h2 := hall s (by simp)
        rcases h with h | h <;> omega
    · rw [if_neg h, ihl]
      constructor
      · intro hall t ht
        rcases List.mem_cons.mp ht with rfl | h2
        · omega
        · exact hall t h2
      · intro hall t ht; exact hall t (List.mem_cons_of_mem s ht)

theorem checkSizesGo_error_eq {iw ih : Nat} {l : List Size} {e : RectanglePackingError}
    (h : checkSizesGo iw ih l = .error e) : e = checkErr := by
  induction l with
  | nil => exact Except.noConfusion h
  | cons s rest ihl =>
    simp only [checkSizesGo] at h
    split at h
    · injection h with h2; exact h2.symm
    · exact ihl h

theorem checkSizesGo_err {iw ih : Nat} {l : List Size}
    (h : ∃ s ∈ l, iw < s.width ∨ ih < s.height) :
    checkSizesGo iw ih l = .error checkErr := by
  induction l with
  | nil => simp at h
  | cons s rest ihl =>
    simp only [checkSizesGo]
    by_cases hs : s.width > iw ∨ s.height > ih
    · rw [if_pos hs]
    · rw [if_neg hs]
      apply ihl
      rcases h with ⟨t, ht, hvt⟩
      rcases List.mem_cons.mp ht with rfl | h2
      · exact absurd hvt hs
      · exact ⟨t, h2, hvt⟩

theorem check_sizes_error_shape {sizes : List Size} {config : RectanglePackerConfig}
    {e : RectanglePackingError} (h : check_sizes sizes config = some (.error e)) :
    e = checkErr := by
  unfold check_sizes at h
  split at h
  · exact Option.noConfusion h (fun h2 => Except.noConfusion h2)
  · split at h
    · injection h with h2
      exact checkSizesGo_error_eq h2
    · exact Option.noConfusion h

theorem packLoop_ok_map {rp bp mW mH : Nat} (l : List Size) :
    ∀ (c : Cursor) (acc : List Rectangle) (res : RectanglePackingResult),
      packLoop rp bp mW mH c acc l = some (.ok res) →
      res.rectangles.map (fun r => (r.width, r.height)) =
        acc.map (fun r => (r.width, r.height)) ++ l.map (fun s => (s.width, s.height)) := by
  induction l with
  | nil =>
    intro c acc res h
    simp only [packLoop, Option.some.injEq, Except.ok.injEq] at h
    subst h
    simp
  | cons s rest ihl =>
    intro c acc res h
    simp only [packLoop] at h
    split at h
    · split at h
      · simp at h
      · have h2 := ihl _ _ _ h
        rw [h2]
        simp [Rectangle.from_size]
    · exact Option.noConfusion h

theorem packLoop_error_rectangles {rp bp mW mH : Nat} (l : List Size) :
    ∀ (c : Cursor) (acc : List Rectangle) (e : RectanglePackingError),
      packLoop rp bp mW mH c acc l = some (.error e) → e.result.rectangles = [] := by
  induction l with
  | nil =>
    intro c acc e h
    simp [packLoop] at h
  | cons s rest ihl =>
    intro c acc e h
    simp only [packLoop] at h
    split at h
    · split at h
      · simp only [Option.some.injEq, Except.error.injEq] at h
        rw [← h]
        rfl
      · exact ihl _ _ _ h
    · exact Option.noConfusion h

theorem packLoop_isSome {rp bp mW mH : Nat} (hW : bp ≤ mW) (hH : bp ≤ mH) (l : List Size) :
    ∀ (c : Cursor) (acc : List Rectangle), (packLoop rp bp mW mH c acc l).isSome := by
  induction l with
  | nil => intro c acc; simp [packLoop]
  | cons s rest ihl =>
    intro c acc
    simp only [packLoop, usub_eq_some hW, usub_eq_some hH]
    split
    · simp
    · exact ihl _ _

theorem foldr_max_eq_of_perm {l1 l2 : List Nat} (h : l1.Perm l2) :
    l1.foldr max 0 = l2.foldr max 0 := by
  induction h with
  | nil => rfl
  | cons x _ ih => simp [ih]
  | swap x y l => simp only [List.foldr]; rw [max_left_comm]
  | trans _ _ ih1 ih2 => exact ih1.trans ih2

theorem sortSizes_eq_of_perm {l1 l2 : List Size} (h : l1.Perm l2) :
    sortSizes l1 = sortSizes l2 :=
  List.eq_of_perm_of_sorted
    ((List.perm_insertionSort sizeLe l1).trans
      (h.trans (List.perm_insertionSort sizeLe l2).symm))
    (List.sorted_insertionSort sizeLe l1)
    (List.sorted_insertionSort sizeLe l2)

theorem effectiveMaxSize_eq_of_perm {l1 l2 : List Size}
    (config : RectanglePackerConfig) (h : l1.Perm l2) :
    effectiveMaxSize l1 config = effectiveMaxSize l2 config := by
  unfold effectiveMaxSize
  cases config.max_size with
  | some m => rfl
  | none =>
    cases l1 with
    | nil =>
      have h2 : l2 = [] := h.symm.eq_nil
      subst h2
      rfl
    | cons a t =>
      cases l2 with
      | nil => exact absurd h.eq_nil (by simp)
      | cons b u =>
        have hw : ((a :: t).map Size.width).foldr max 0 =
            ((b :: u).map Size.width).foldr max 0 :=
          foldr_max_eq_of_perm (h.map Size.width)
        have hs : ((a :: t).map Size.width).sum = ((b :: u).map Size.width).sum :=
          (h.map Size.width).sum_eq
        have hn : (a :: t).length = (b :: u).length := h.length_eq
        simp only [maxWidth]
        rw [hw, hs, hn]

theorem check_sizes_ok_of_perm {l1 l2 : List Size} {config : RectanglePackerConfig}
    (h : l1.Perm l2) (hok : check_sizes l1 config = some (.ok ())) :
    check_sizes l2 config = some (.ok ()) := by
  unfold check_sizes at hok ⊢
  cases hc : config.max_size with
  | none => simp only [hc]
  | some m =>
    simp only [hc] at hok ⊢
    cases h1 : usub m.width (2 * (config.border_padding + config.rectangle_padding)) with
    | none => simp only [h1] at hok; exact Option.noConfusion hok
    | some iw =>
      cases h2 : usub m.height (2 * (config.border_padding + config.rectangle_padding)) with
      | none => simp only [h1, h2] at hok; exact Option.noConfusion hok
      | some ih =>
        simp only [h1, h2] at hok ⊢
        injection hok with hok
        have hall := checkSizesGo_ok_iff.mp hok
        refine congrArg some (checkSizesGo_ok_iff.mpr ?_)
        intro s hs
        exact hall s (h.mem_iff.mpr hs)

/-! ### Claim theorems -/

/-- C1: containment fails on the code.  With the default config and input
[Size(4,2), Size(4,2)] the pack succeeds, yet the first placed rectangle
(recorded at the post-advance cursor, see src/height_rect_pack.rs line 84)
has x + width = 8, which exceeds the reported container width 4: a
successful result's rectangles are not bounded by the reported size,
contradicting the containment invariant that both the specification and the
source comment at line 74 intend. -/
theorem pack_containment_violation :
    pack [⟨4,2⟩, ⟨4,2⟩] RectanglePackerConfig.default =
      some (.ok ⟨[⟨4,0,4,2⟩, ⟨4,2,4,2⟩], ⟨4,4⟩⟩) ∧
    (Size.mk 4 4).width < (Rectangle.mk 4 0 4 2).x + (Rectangle.mk 4 0 4 2).width :=
  ⟨rfl, by decide⟩

/-- C3: pack on the empty list panics instead of succeeding.  With the
default (max_size = None) config the row-width heuristic evaluates
`.max().unwrap()` on an empty iterator, a panic (modelled as `none`);
with a Some(max) config the empty input does succeed with the minimal
cursor size (border_padding + rectangle_padding in each dimension). -/
theorem pack_empty_panics :
    pack [] RectanglePackerConfig.default = none ∧
    pack [] ⟨some ⟨10,10⟩, 0, 0⟩ = some (.ok ⟨[], ⟨0, 0⟩⟩) ∧
    pack [] ⟨some ⟨100,100⟩, 3, 2⟩ = some (.ok ⟨[], ⟨5, 5⟩⟩) :=
  ⟨rfl, rfl, rfl⟩

/-- C4 counterexample: with the default config and input
[Size(4,2), Size(4,2)], the heuristic row width is 4 (not > 8), so the two
rectangles are NOT in a single row (their y coordinates are 0 and 2) and
the result height is 4, not 2. -/
theorem pack_two_4x2_claim_false :
    pack [⟨4,2⟩, ⟨4,2⟩] RectanglePackerConfig.default =
      some (.ok ⟨[⟨4,0,4,2⟩, ⟨4,2,4,2⟩], ⟨4,4⟩⟩) ∧
    (Rectangle.mk 4 0 4 2).y ≠ (Rectangle.mk 4 2 4 2).y ∧
    (Size.mk 4 4).height ≠ 2 :=
  ⟨rfl, by decide, by decide⟩

/-- C4 (amended): with the default config and input [Size(4,2), Size(4,2)],
pack succeeds; the heuristic row width is max((8/2)*1, 4) = 4, so the second
rectangle wraps to a second row: the rectangles are placed at (4,0) and
(4,2) and the result size is Size(4,4). -/
theorem pack_two_4x2_two_rows :
    pack [⟨4,2⟩, ⟨4,2⟩] RectanglePackerConfig.default =
      some (.ok ⟨[Rectangle.mk 4 0 4 2, Rectangle.mk 4 2 4 2], Size.mk 4 4⟩) :=
  rfl

/-- C8: `Rectangle.contains` uses inclusive bounds — every rectangle
contains itself — and `Rectangle.intersects` uses exclusive bounds —
two rectangles meeting along a shared vertical edge (a's right edge equal
to b's left edge) or a shared horizontal edge never intersect, in either
direction; in particular for Rectangle(0,0,5,5) and Rectangle(5,0,5,5). -/
theorem contains_refl_intersects_edge_exclusive :
    (∀ r : Rectangle, r.contains r = true) ∧
    (∀ a b : Rectangle, a.x + a.width = b.x →
      a.intersects b = false ∧ b.intersects a = false) ∧
    (∀ a b : Rectangle, a.y + a.height = b.y →
      a.intersects b = false ∧ b.intersects a = false) ∧
    (Rectangle.mk 0 0 5 5).intersects (Rectangle.mk 5 0 5 5) = false ∧
    (Rectangle.mk 5 0 5 5).intersects (Rectangle.mk 0 0 5 5) = false := by
  refine ⟨?_, ?_, ?_, by decide, by decide⟩
  · intro r
    simp only [Rectangle.contains, decide_eq_true_eq]
    omega
  · intro a b hedge
    constructor <;>
      · simp only [Rectangle.intersects, decide_eq_false_iff_not]
        omega
  · intro a b hedge
    constructor <;>
      · simp only [Rectangle.intersects, decide_eq_false_iff_not]
        omega

/-- C8 witness: the edge-sharing implications applied to concrete
rectangles (0,0,2,3) and (2,0,4,4) sharing the vertical edge x = 2. -/
theorem contains_refl_intersects_edge_exclusive_witness :
    (Rectangle.mk 0 0 2 3).intersects (Rectangle.mk 2 0 4 4) = false ∧
    (Rectangle.mk 2 0 4 4).intersects (Rectangle.mk 0 0 2 3) = false :=
  contains_refl_intersects_edge_exclusive.2.1 ⟨0,0,2,3⟩ ⟨2,0,4,4⟩ (by decide)

/-- C10: non-overlap fails on the code.  With max_size Some(100,100), zero
padding, and input [Size(10,1), Size(2,2)], pack succeeds with rectangles
(10,0,10,1) and (12,0,2,2), which intersect: the post-advance placement
makes the first rectangle span x in [10,20) while the second starts at 12
in the same row. -/
theorem pack_overlap_violation :
    pack [⟨10,1⟩, ⟨2,2⟩] ⟨some ⟨100,100⟩, 0, 0⟩ =
      some (.ok ⟨[⟨10,0,10,1⟩, ⟨12,0,2,2⟩], ⟨12,2⟩⟩) ∧
    (Rectangle.mk 10 0 10 1).intersects (Rectangle.mk 12 0 2 2) = true :=
  ⟨rfl, by decide⟩

/-- C2 counterexample: with max_size Some(5,5), zero padding, and input
[Size(4,2)] × 3, the first two rectangles are placed (at (4,0) and (4,2))
and the third overflows the height, but the returned error's partial
result holds NO rectangles (an empty list, not the two placed ones);
only its size (0,4) reflects the cursor. -/
theorem pack_midpass_error_drops_placed :
    pack [⟨4,2⟩, ⟨4,2⟩, ⟨4,2⟩] ⟨some ⟨5,5⟩, 0, 0⟩ =
      some (.error ⟨"Could not fit all rectangles in max size", ⟨[], ⟨0, 4⟩⟩⟩) ∧
    ([] : List Rectangle) ≠ [Rectangle.mk 4 0 4 2, Rectangle.mk 4 2 4 2] :=
  ⟨rfl, by decide⟩

/-- C2 (amended): every error returned by pack carries an EMPTY rectangle
list (the rectangles placed before the failure are discarded, contrary to
the claim), and a mid-pass height overflow fails with the in-progress
(post-wrap) cursor (x, y) as the partial result's size. -/
theorem pack_error_empty_and_cursor :
    (∀ (sizes : List Size) (config : RectanglePackerConfig) (e : RectanglePackingError),
      pack sizes config = some (.error e) → e.result.rectangles = []) ∧
    (∀ (rp bp mW mH : Nat) (c : Cursor) (acc : List Rectangle) (s : Size)
        (rest : List Size) (mw mh : Nat),
      usub mW bp = some mw → usub mH bp = some mh →
      (wrapStep rp mw c s).y + s.height + rp > mh →
      packLoop rp bp mW mH c acc (s :: rest) =
        some (.error (overflowErr (wrapStep rp mw c s).x (wrapStep rp mw c s).y))) := by
  constructor
  · intro sizes config e h
    unfold pack at h
    cases he : effectiveMaxSize sizes config with
    | none => simp only [he] at h; exact Option.noConfusion h
    | some ms =>
      simp only [he] at h
      cases hc : check_sizes sizes config with
      | none => simp only [hc] at h; exact Option.noConfusion h
      | some exc =>
        cases exc with
        | error e1 =>
          simp only [hc, Option.some.injEq, Except.error.injEq] at h
          rw [← h, check_sizes_error_shape hc]
          rfl
        | ok u =>
          cases u
          simp only [hc] at h
          exact packLoop_error_rectangles _ _ _ _ h
  · intro rp bp mW mH c acc s rest mw mh h1 h2 h3
    simp only [packLoop, h1, h2]
    rw [if_pos h3]

/-- C2 witness: the amended claim applied at concrete inputs — the error
returned for [Size(4,2)] × 3 under max_size Some(5,5) has no rectangles,
and a loop step that overflows fails with the wrapped cursor (0,4). -/
theorem pack_error_empty_and_cursor_witness :
    (RectanglePackingError.mk "Could not fit all rectangles in max size"
        ⟨[], ⟨0, 4⟩⟩).result.rectangles = [] ∧
    packLoop 0 0 5 5 ⟨4, 2, 2⟩ [⟨4,0,4,2⟩, ⟨4,2,4,2⟩] [⟨4,2⟩] =
      some (.error (overflowErr 0 4)) := by
  constructor
  · exact pack_error_empty_and_cursor.1 [⟨4,2⟩, ⟨4,2⟩, ⟨4,2⟩] ⟨some ⟨5,5⟩, 0, 0⟩ _ rfl
  · exact pack_error_empty_and_cursor.2 0 0 5 5 ⟨4, 2, 2⟩
      [⟨4,0,4,2⟩, ⟨4,2,4,2⟩] ⟨4,2⟩ [] 5 5 rfl rfl (by decide)

/-- C5: the pre-flight check.  Concretely, max_size Some(10,10) with zero
padding rejects [Size(20,5)] before any placement with an empty partial
result of size (0,0).  Generally, whenever max_size is set (and the
interior subtraction does not underflow), any input size exceeding the
usable interior in either dimension makes check_sizes fail with that same
empty partial result, and when max_size is None check_sizes always
succeeds. -/
theorem check_sizes_preflight :
    pack [⟨20,5⟩] ⟨some ⟨10,10⟩, 0, 0⟩ =
      some (.error ⟨"Rectangle size is greater than max size", ⟨[], ⟨0, 0⟩⟩⟩) ∧
    (∀ (sizes : List Size) (config : RectanglePackerConfig) (m : Size),
      config.max_size = some m →
      2 * (config.border_padding + config.rectangle_padding) ≤ m.width →
      2 * (config.border_padding + config.rectangle_padding) ≤ m.height →
      (∃ s ∈ sizes,
        m.width - 2 * (config.border_padding + config.rectangle_padding) < s.width ∨
        m.height - 2 * (config.border_padding + config.rectangle_padding) < s.height) →
      check_sizes sizes config =
        some (.error ⟨"Rectangle size is greater than max size", ⟨[], ⟨0, 0⟩⟩⟩)) ∧
    (∀ (sizes : List Size) (config : RectanglePackerConfig),
      config.max_size = none → check_sizes sizes config = some (.ok ())) := by
  refine ⟨rfl, ?_, ?_⟩
  · intro sizes config m hm h1 h2 hex
    unfold check_sizes
    simp only [hm, usub_eq_some h1, usub_eq_some h2]
    rw [checkSizesGo_err hex]
    rfl
  · intro sizes config hm
    unfold check_sizes
    simp only [hm]

/-- C5 witness: the general clauses applied at the concrete input —
check_sizes rejects Size(20,5) under max_size Some(10,10), and accepts
anything under the default (max_size = None) config. -/
theorem check_sizes_preflight_witness :
    check_sizes [⟨20,5⟩] ⟨some ⟨10,10⟩, 0, 0⟩ =
      some (.error ⟨"Rectangle size is greater than max size", ⟨[], ⟨0, 0⟩⟩⟩) ∧
    check_sizes [⟨20,5⟩] RectanglePackerConfig.default = some (.ok ()) := by
  constructor
  · exact check_sizes_preflight.2.1 [⟨20,5⟩] ⟨some ⟨10,10⟩, 0, 0⟩ ⟨10,10⟩ rfl
      (by decide) (by decide) ⟨⟨20,5⟩, by simp, Or.inl (by decide)⟩
  · exact check_sizes_preflight.2.2 [⟨20,5⟩] RectanglePackerConfig.default rfl

/-- C6: every successful pack yields exactly one rectangle per input size,
and the sequence of (width, height) pairs of the placed rectangles equals
the input sizes sorted ascending by the Size total order (height primary,
width secondary): placement only assigns x and y. -/
theorem pack_ok_count_and_dims (sizes : List Size) (config : RectanglePackerConfig)
    (res : RectanglePackingResult) (h : pack sizes config = some (.ok res)) :
    res.rectangles.length = sizes.length ∧
    res.rectangles.map (fun r => (r.width, r.height)) =
      (sortSizes sizes).map (fun s => (s.width, s.height)) := by
  unfold pack at h
  cases he : effectiveMaxSize sizes config with
  | none => simp only [he] at h; exact Option.noConfusion h
  | some ms =>
    simp only [he] at h
    cases hc : check_sizes sizes config with
    | none => simp only [hc] at h; exact Option.noConfusion h
    | some exc =>
      cases exc with
      | error e1 =>
        simp only [hc] at h
        injection h with h2
        exact Except.noConfusion h2
      | ok u =>
        cases u
        simp only [hc] at h
        have hm := packLoop_ok_map (sortSizes sizes) _ [] res h
        constructor
        · have hlen := congrArg List.length hm
          simp only [List.length_map, List.map_nil, List.nil_append] at hlen
          rw [hlen, sortSizes, List.length_insertionSort]
        · simpa using hm

/-- C6 witness: the theorem applied to the successful pack of [Size(4,2)]
with the default config, whose result is [(4,0,4,2)] with size (4,2). -/
theorem pack_ok_count_and_dims_witness :
    (RectanglePackingResult.mk [Rectangle.mk 4 0 4 2] (Size.mk 4 2)).rectangles.length =
      ([Size.mk 4 2]).length ∧
    (RectanglePackingResult.mk [Rectangle.mk 4 0 4 2] (Size.mk 4 2)).rectangles.map
        (fun r => (r.width, r.height)) =
      (sortSizes [Size.mk 4 2]).map (fun s => (s.width, s.height)) :=
  pack_ok_count_and_dims [⟨4,2⟩] RectanglePackerConfig.default ⟨[⟨4,0,4,2⟩], ⟨4,2⟩⟩ rfl

/-- C7: pack is invariant under permutation of its input — two inputs that
are permutations of the same multiset of sizes yield the same successful
result (same rectangles in the same order, same container size), since the
sort normalizes the order and the preceding heuristic and pre-flight check
depend only on the multiset. -/
theorem pack_perm_invariant (config : RectanglePackerConfig) (l1 l2 : List Size)
    (hp : l1.Perm l2) (res : RectanglePackingResult)
    (h : pack l1 config = some (.ok res)) : pack l2 config = some (.ok res) := by
  unfold pack at h ⊢
  rw [← effectiveMaxSize_eq_of_perm config hp]
  cases he : effectiveMaxSize l1 config with
  | none => simp only [he] at h; exact Option.noConfusion h
  | some ms =>
    simp only [he] at h ⊢
    cases hc : check_sizes l1 config with
    | none => simp only [hc] at h; exact Option.noConfusion h
    | some exc =>
      cases exc with
      | error e1 =>
        simp only [hc] at h
        injection h with h2
        exact Except.noConfusion h2
      | ok u =>
        cases u
        simp only [hc] at h
        simp only [check_sizes_ok_of_perm hp hc]
        rw [← sortSizes_eq_of_perm hp]
        exact h

/-- C7 witness: swapping [Size(1,2), Size(3,1)] to [Size(3,1), Size(1,2)]
under max_size Some(100,100) yields the identical successful result. -/
theorem pack_perm_invariant_witness :
    pack [⟨3,1⟩, ⟨1,2⟩] ⟨some ⟨100,100⟩, 0, 0⟩ =
      some (.ok ⟨[⟨3,0,3,1⟩, ⟨4,0,1,2⟩], ⟨4,2⟩⟩) :=
  pack_perm_invariant ⟨some ⟨100,100⟩, 0, 0⟩ [⟨1,2⟩, ⟨3,1⟩] [⟨3,1⟩, ⟨1,2⟩]
    (List.Perm.swap (Size.mk 3 1) (Size.mk 1 2) []) ⟨[⟨3,0,3,1⟩, ⟨4,0,1,2⟩], ⟨4,2⟩⟩ rfl

/-- C9: when max_size = Some m and both of m's dimensions are at least
2*(border_padding + rectangle_padding), none of the usize subtractions in
check_sizes or the placement loop underflows and pack is total (never a
panic); a config violating the precondition in either dimension makes the
usize subtraction underflow (a panic, modelled none) instead of returning
an error. -/
theorem pack_no_underflow (sizes : List Size) (config : RectanglePackerConfig)
    (m : Size) (hm : config.max_size = some m) :
    (2 * (config.border_padding + config.rectangle_padding) ≤ m.width →
     2 * (config.border_padding + config.rectangle_padding) ≤ m.height →
     (pack sizes config).isSome) ∧
    (m.width < 2 * (config.border_padding + config.rectangle_padding) ∨
     m.height < 2 * (config.border_padding + config.rectangle_padding) →
     pack sizes config = none) := by
  constructor
  · intro h1 h2
    unfold pack effectiveMaxSize check_sizes
    simp only [hm, usub_eq_some h1, usub_eq_some h2]
    cases hg : checkSizesGo
        (m.width - 2 * (config.border_padding + config.rectangle_padding))
        (m.height - 2 * (config.border_padding + config.rectangle_padding)) sizes with
    | error e => simp [hg]
    | ok u =>
      cases u
      simp only [hg]
      exact packLoop_isSome (by omega) (by omega) _ _ _
  · intro hviol
    unfold pack effectiveMaxSize check_sizes
    rcases hviol with hv | hv
    · simp only [hm, usub_eq_none hv]
    · cases hw : usub m.width (2 * (config.border_padding + config.rectangle_padding)) with
      | none => simp only [hm, hw]
      | some iw => simp only [hm, hw, usub_eq_none hv]

/-- C9 witness: the theorem applied at concrete configs — paddings 1/1 with
max_size Some(4,4) satisfy the precondition and pack is total, while
max_size Some(3,4) underflows and pack panics. -/
theorem pack_no_underflow_witness :
    (pack [⟨1,1⟩] ⟨some ⟨4,4⟩, 1, 1⟩).isSome ∧
    pack [⟨1,1⟩] ⟨some ⟨3,4⟩, 1, 1⟩ = none :=
  ⟨(pack_no_underflow [⟨1,1⟩] ⟨some ⟨4,4⟩, 1, 1⟩ ⟨4,4⟩ rfl).1 (by decide) (by decide),
   (pack_no_underflow [⟨1,1⟩] ⟨some ⟨3,4⟩, 1, 1⟩ ⟨3,4⟩ rfl).2 (Or.inl (by decide))⟩

end RPack
